import Mathlib

/-!
Verification of the storage-bucket client library: the declared TypeScript
surface from dist/index.d.ts, and models of the multipart upload coordinator,
the preview resolver and the trusted relay described by the design document.
-/

/-- Shallow embedding of the TypeScript types appearing in dist/index.d.ts. -/
inductive Ty where
  | string
  | number
  | file
  | voidTy
  | promise (t : Ty)
  | obj (fields : List (String × Ty))
  | func (arg ret : Ty)
  | optional (t : Ty)

/-- A declared method signature: parameter list (name, type) and return type. -/
structure MethodSig where
  params : List (String × Ty)
  ret : Ty

/-- Embedding of the UploadProgress type (dist/index.d.ts lines 25-29). -/
def uploadProgressTy : Ty :=
  Ty.obj [("loaded", Ty.number), ("total", Ty.number), ("percent", Ty.number)]

/-- Embedding of UploadOptions (dist/index.d.ts lines 1-7 and 30-32). -/
def uploadOptionsTy : Ty :=
  Ty.obj [("onProgress", Ty.optional (Ty.func uploadProgressTy Ty.voidTy))]

/-- Embedding of the declared signature of Storage.upload
    (dist/index.d.ts lines 9-11). -/
def uploadSig : MethodSig :=
  { params := [("file", Ty.file), ("bucketId", Ty.string), ("options", Ty.optional uploadOptionsTy)],
    ret := Ty.promise (Ty.obj [("key", Ty.string)]) }

/-- The members declared on the Storage class (dist/index.d.ts lines 8-12):
    a single static method, upload. -/
def storageDeclMembers : List (String × MethodSig) := [("upload", uploadSig)]

/-- The export list of the module (dist/index.d.ts line 34). -/
def moduleExports : List String :=
  ["UploadOptions", "UploadProgress", "handleStorageRequest", "storage"]

/-- Client methods documented in the README bundled inside dist/index.d.ts:
    storage.upload (line 171) and storage.get (line 216). -/
def readmeClientMethods : List String := ["upload", "get"]

/-- Return type of storage.get as documented by the bundled README
    (dist/index.d.ts lines 228-233). -/
def readmeGetReturn : Ty :=
  Ty.promise (Ty.obj [("url", Ty.string), ("expiresAt", Ty.number)])

/-- Names the bundled README instructs users to import from the package
    (dist/index.d.ts lines 451-456). -/
def readmeImportExample : List String :=
  ["storage", "UploadOptions", "UploadProgress", "PreviewResult"]

/-- Modelled from the spec: the Coordinator chunking policy (the coordinator
    implementation is not under src). Constant part size P for every part
    except the final, possibly smaller, part. -/
def chunkSizes (S P : Nat) : List Nat :=
  if P = 0 then []
  else if S = 0 then []
  else if S ≤ P then [S]
  else P :: chunkSizes (S - P) P
termination_by S
decreasing_by omega

/-- Modelled from the spec: a ProgressSnapshot carries loaded bytes, total
    bytes, and a derived percent clamped to 0-100. -/
structure ProgressSnapshot where
  loaded : Nat
  total : Nat
  percent : Nat
deriving DecidableEq, Repr

/-- Modelled from the spec: snapshot construction with derived, clamped percent. -/
def mkSnapshot (loaded total : Nat) : ProgressSnapshot :=
  { loaded := loaded, total := total,
    percent := if total = 0 then 100 else min 100 (loaded * 100 / total) }

/-- Modelled from the spec: the sequence of snapshots passed to the progress
    callback during one upload call (the coordinator implementation is not
    under src). The argument order lists the part sizes in the order in which
    the part PUTs resolved successfully; after the k-th completion the
    callback sees as loaded exactly the bytes of the completed parts. -/
def progressTrace (order : List Nat) (total : Nat) : List ProgressSnapshot :=
  (List.range order.length).map (fun k => mkSnapshot ((order.take (k + 1)).sum) total)

/-- Modelled from the spec: the outcome of one part attempt inside upload.
    Either the PUT succeeded with an ETag, or obtaining the presigned URL
    failed, or the PUT itself failed. -/
inductive PartAttempt where
  | success (etag : String)
  | urlFailed (cause : String)
  | putFailed (cause : String)
deriving DecidableEq, Repr

/-- The failure cause carried by a part attempt, if any. -/
def attemptCause : PartAttempt → Option String
  | PartAttempt.success _ => none
  | PartAttempt.urlFailed c => some c
  | PartAttempt.putFailed c => some c

/-- First failure cause among the part attempts, scanning in order. -/
def firstFailure : List PartAttempt → Option String
  | [] => none
  | a :: rest =>
    match attemptCause a with
    | some c => some c
    | none => firstFailure rest

/-- Modelled from the spec: the error taxonomy entry raised by upload. -/
inductive UploadError where
  | uploadFailed (cause : String)
deriving DecidableEq, Repr

/-- Result of one upload call: the terminal outcome and whether a best-effort
    abort call to the Relay was attempted. -/
structure UploadResult where
  outcome : Except UploadError String
  abortAttempted : Bool
deriving Repr

/-- Modelled from the spec: the terminal behaviour of upload given the part
    attempt outcomes (the coordinator implementation is not under src). Any
    failure aborts the session and rejects with UploadFailed carrying the
    underlying cause; otherwise the object key is returned. -/
def uploadOutcome (attempts : List PartAttempt) (key : String) : UploadResult :=
  match firstFailure attempts with
  | some c => ⟨Except.error (UploadError.uploadFailed c), true⟩
  | none => ⟨Except.ok key, false⟩

/-- Modelled from the spec: a recorded part success, pairing the one-based
    part number with the ETag returned by the storage backend. -/
structure PartRecord where
  num : Nat
  etag : String
deriving DecidableEq, Repr

/-- Ordering of part records by part number. -/
def byNum (a b : PartRecord) : Prop := a.num ≤ b.num

instance : DecidableRel byNum := fun a b => inferInstanceAs (Decidable (a.num ≤ b.num))

instance : IsTotal PartRecord byNum := ⟨fun a b => Nat.le_total a.num b.num⟩

instance : IsTrans PartRecord byNum := ⟨fun _ _ _ => Nat.le_trans⟩

/-- The full set of part records of a session with n parts: contiguous part
    numbers starting at 1, each with its ETag. -/
def allParts (n : Nat) (etagOf : Nat → String) : List PartRecord :=
  (List.range n).map (fun i => ⟨i + 1, etagOf (i + 1)⟩)

/-- Modelled from the spec: the part list handed to finalize (the coordinator
    implementation is not under src). The records accumulated in completion
    order are sorted by ascending part number before finalize is called. -/
def finalizeInput (recorded : List PartRecord) : List PartRecord :=
  List.insertionSort byNum recorded

/-- Modelled from the spec: the enumerated operations the Relay dispatches on. -/
inductive RelayOp where
  | init
  | partUrl
  | finalize
  | abort
  | preview
deriving DecidableEq, Repr

/-- Modelled from the spec: recognition of the routing discriminator. -/
def parseOp (s : String) : Option RelayOp :=
  if s = "init" then some RelayOp.init
  else if s = "part-url" then some RelayOp.partUrl
  else if s = "finalize" then some RelayOp.finalize
  else if s = "abort" then some RelayOp.abort
  else if s = "preview" then some RelayOp.preview
  else none

/-- The recognized routing discriminator strings. -/
def recognizedProviders : List String := ["init", "part-url", "finalize", "abort", "preview"]

/-- Modelled from the spec: Relay-side error taxonomy entries. -/
inductive RelayError where
  | configurationError
  | invalidRoute
deriving DecidableEq, Repr

/-- A backend HTTP response: status code and body, passed through verbatim. -/
structure BackendResponse where
  status : Nat
  body : String
deriving DecidableEq, Repr

/-- The outcome of one Relay invocation: either an explicit structured error
    response produced without contacting the backend, or the backend response
    forwarded verbatim. -/
inductive RelayOutcome where
  | reject (e : RelayError)
  | pass (resp : BackendResponse)
deriving DecidableEq, Repr

/-- Modelled from the spec: the Trusted Relay handler (only its TypeScript
    declaration is under src, at dist/index.d.ts lines 15-23). The credential
    check comes first, as listed in the spec; a missing or empty secret
    credential yields a ConfigurationError response, an unrecognized routing
    discriminator yields an invalid-route response, and only a recognized
    request is forwarded to the backend. The handler is a total function:
    it never throws. -/
def handleStorageRequest (apiKey : Option String) (provider : String)
    (backend : RelayOp → BackendResponse) : RelayOutcome :=
  if apiKey = none ∨ apiKey = some "" then
    RelayOutcome.reject RelayError.configurationError
  else
    match parseOp provider with
    | none => RelayOutcome.reject RelayError.invalidRoute
    | some op => RelayOutcome.pass (backend op)

/-- Modelled from the spec: a PreviewGrant, the presigned GET URL together
    with the absolute backend-issued expiration timestamp (Unix seconds). -/
structure PreviewGrant where
  url : String
  expiresAt : Nat
deriving DecidableEq, Repr

/-- Modelled from the spec: the error raised by the Preview Resolver. -/
inductive PreviewError where
  | previewFailed
deriving DecidableEq, Repr

/-- Modelled from the spec: the backend preview endpoint. For a key the store
    knows, it issues a presigned URL expiring 300 seconds (5 minutes, per the
    bundled README) after the current time; otherwise it reports no grant. -/
def backendPreview (store : String → Option String) (now : Nat) (key : String) :
    Option PreviewGrant :=
  (store key).map (fun u => ⟨u, now + 300⟩)

/-- Modelled from the spec: the Preview Resolver get operation (absent from
    the declarations under src). It performs one Relay call and returns the
    backend grant verbatim, without caching or local expiration checks; a
    Relay transport error or an unknown key yields PreviewFailed. -/
def Storage.get (relayFails : Bool) (lookup : String → Option PreviewGrant) (key : String) :
    Except PreviewError PreviewGrant :=
  if relayFails then Except.error PreviewError.previewFailed
  else
    match lookup key with
    | none => Except.error PreviewError.previewFailed
    | some g => Except.ok g

theorem chunkSizes_length (S P : Nat) (hP : 0 < P) :
    (chunkSizes S P).length = (S + P - 1) / P := by
  induction S, P using chunkSizes.induct with
  | case1 S => omega
  | case2 P h =>
      have h0 : (P - 1) / P = 0 := Nat.div_eq_of_lt (by omega)
      rw [chunkSizes]
      simp [h, h0]
  | case3 S P hP0 hS0 hSP =>
      rw [chunkSizes]
      simp only [if_neg hP0, if_neg hS0, if_pos hSP, List.length_singleton]
      exact (Nat.div_eq_of_lt_le (by omega) (by omega)).symm
  | case4 S P hP0 hS0 hSP ih =>
      rw [chunkSizes]
      simp only [if_neg hP0, if_neg hS0, if_neg hSP, List.length_cons, ih hP]
      have h1 : S + P - 1 = (S - P + P - 1) + P := by omega
      rw [h1, Nat.add_div_right _ hP]

theorem chunkSizes_sum (S P : Nat) (hP : 0 < P) : (chunkSizes S P).sum = S := by
  induction S, P using chunkSizes.induct with
  | case1 S => omega
  | case2 P h => rw [chunkSizes]; simp [h]
  | case3 S P hP0 hS0 hSP =>
      rw [chunkSizes]; simp [hP0, hS0, hSP]
  | case4 S P hP0 hS0 hSP ih =>
      rw [chunkSizes]
      simp only [if_neg hP0, if_neg hS0, if_neg hSP, List.sum_cons, ih hP]
      omega

theorem chunkSizes_getLast? (S P : Nat) (hP : 0 < P) (hS : 0 < S) :
    (chunkSizes S P).getLast? = some (if S % P = 0 then P else S % P) := by
  induction S, P using chunkSizes.induct with
  | case1 S => omega
  | case2 P h => omega
  | case3 S P hP0 hS0 hSP =>
      rw [chunkSizes]
      simp only [if_neg hP0, if_neg hS0, if_pos hSP]
      rcases Nat.lt_or_ge S P with h | h
      · rw [Nat.mod_eq_of_lt h, if_neg hS0]
        rfl
      · have hEq : S = P := by omega
        subst hEq
        simp
  | case4 S P hP0 hS0 hSP ih =>
      rw [chunkSizes]
      simp only [if_neg hP0, if_neg hS0, if_neg hSP]
      have hrec : (chunkSizes (S - P) P).getLast? =
          some (if (S - P) % P = 0 then P else (S - P) % P) := ih hP (by omega)
      have hne : chunkSizes (S - P) P ≠ [] := by
        intro hemp
        rw [hemp] at hrec
        simp at hrec
      obtain ⟨b, l, hbl⟩ := List.exists_cons_of_ne_nil hne
      rw [hbl] at hrec ⊢
      rw [List.getLast?_cons_cons, hrec, ← Nat.mod_eq_sub_mod (by omega)]

theorem sum_take_mono (l : List Nat) {i j : Nat} (h : i ≤ j) :
    (l.take i).sum ≤ (l.take j).sum := by
  have hj : j = i + (j - i) := by omega
  rw [hj, List.take_add, List.sum_append]
  omega

theorem sum_take_le (l : List Nat) (i : Nat) : (l.take i).sum ≤ l.sum := by
  have := List.sum_take_add_sum_drop l i
  omega

theorem firstFailure_some (attempts : List PartAttempt)
    (h : ∃ a ∈ attempts, attemptCause a ≠ none) :
    ∃ c, firstFailure attempts = some c ∧ ∃ a ∈ attempts, attemptCause a = some c := by
  induction attempts with
  | nil => simp at h
  | cons a rest ih =>
      cases hc : attemptCause a with
      | some c =>
          exact ⟨c, by simp [firstFailure, hc], a, List.mem_cons_self a rest, hc⟩
      | none =>
          obtain ⟨b, hb, hbc⟩ := h
          rcases List.mem_cons.mp hb with rfl | hb2
          · exact absurd hc hbc
          · obtain ⟨c, hfc, b2, hb2m, hb2c⟩ := ih ⟨b, hb2, hbc⟩
            exact ⟨c, by simp [firstFailure, hc, hfc], b2, List.mem_cons_of_mem a hb2m, hb2c⟩

theorem parseOp_none_iff (s : String) : parseOp s = none ↔ s ∉ recognizedProviders := by
  simp only [parseOp, recognizedProviders, List.mem_cons, List.not_mem_nil, or_false]
  split <;> rename_i h1
  · simp [h1]
  · split <;> rename_i h2
    · simp [h2]
    · split <;> rename_i h3
      · simp [h3]
      · split <;> rename_i h4
        · simp [h4]
        · split <;> rename_i h5
          · simp [h5]
          · simp [h1, h2, h3, h4, h5]

/-- C1: the spec and the README bundled inside dist/index.d.ts present
    get(key), returning a promise of a presigned URL string and an absolute
    expiration timestamp, as part of the public client surface; but the
    Storage class declared in dist/index.d.ts (lines 8-12) has no member
    named get, so the typed public surface omits the documented operation. -/
theorem get_missing_from_storage_decl :
    storageDeclMembers.lookup "get" = none
    ∧ "get" ∈ readmeClientMethods
    ∧ readmeGetReturn = Ty.promise (Ty.obj [("url", Ty.string), ("expiresAt", Ty.number)]) :=
  ⟨rfl, by decide, rfl⟩

/-- C2: the declared upload operation takes a file, a string bucket
    identifier and optional options, and returns a promise of an object with
    exactly one field, a string key (dist/index.d.ts lines 8-12). -/
theorem upload_decl_contract :
    storageDeclMembers.lookup "upload" = some uploadSig
    ∧ uploadSig.params.map Prod.fst = ["file", "bucketId", "options"]
    ∧ uploadSig.params.map Prod.snd = [Ty.file, Ty.string, Ty.optional uploadOptionsTy]
    ∧ uploadSig.ret = Ty.promise (Ty.obj [("key", Ty.string)]) :=
  ⟨rfl, rfl, rfl, rfl⟩

/-- C3 counterexample: for the empty file (S = 0) the chunking policy yields
    ceil(0/P) = 0 parts, so there is no last part at all, while the claim as
    stated demands a last part of size P (since 0 mod P = 0). -/
theorem chunkSizes_empty_file_counterexample :
    chunkSizes 0 5 = []
    ∧ (chunkSizes 0 5).getLast? ≠ some (if 0 % 5 = 0 then 5 else 0 % 5) := by
  have h : chunkSizes 0 5 = [] := by simp [chunkSizes]
  exact ⟨h, by rw [h]; simp⟩

/-- C3 (amended): for every file size S and part size P > 0 the chunking
    policy produces exactly ceil(S/P) parts whose sizes sum to S, and for
    S > 0 the last part has size S mod P when that is nonzero and P
    otherwise; the part count is a function of S alone. -/
theorem chunkSizes_spec (S P : Nat) (hP : 0 < P) :
    (chunkSizes S P).length = (S + P - 1) / P
    ∧ (chunkSizes S P).sum = S
    ∧ (0 < S → (chunkSizes S P).getLast? = some (if S % P = 0 then P else S % P)) :=
  ⟨chunkSizes_length S P hP, chunkSizes_sum S P hP, fun hS => chunkSizes_getLast? S P hP hS⟩

/-- C3 witness: a 25-byte file with part size 5 yields 5 parts summing to 25
    with a last part of size 5. -/
theorem chunkSizes_spec_witness :
    (0:Nat) < 5 ∧ (chunkSizes 25 5).length = 5 ∧ (chunkSizes 25 5).sum = 25
    ∧ (chunkSizes 25 5).getLast? = some 5 := by
  have h := chunkSizes_spec 25 5 (by norm_num)
  refine ⟨by norm_num, ?_, h.2.1, ?_⟩
  · rw [h.1]
  · simpa using h.2.2 (by norm_num)

/-- C4: within one upload call, over any order in which the parts complete,
    the snapshot sequence given to the progress callback has monotonically
    non-decreasing loaded, loaded never exceeding total, exactly one callback
    per completed part, and the loaded value after the k-th completion counts
    exactly the bytes of the k parts whose PUT has resolved successfully. -/
theorem progress_monotone_bounded (sizes order : List Nat) (h : order.Perm sizes) :
    (progressTrace order sizes.sum).length = sizes.length
    ∧ List.Pairwise (fun a b => a.loaded ≤ b.loaded) (progressTrace order sizes.sum)
    ∧ (∀ s ∈ progressTrace order sizes.sum, s.loaded ≤ s.total ∧ s.total = sizes.sum)
    ∧ (∀ k, (progressTrace order sizes.sum)[k]? =
        if k < order.length then some (mkSnapshot ((order.take (k + 1)).sum) sizes.sum)
        else none) := by
  have hlen : order.length = sizes.length := h.length_eq
  have hsum : order.sum = sizes.sum := h.sum_eq
  refine ⟨?_, ?_, ?_, ?_⟩
  · simp [progressTrace, hlen]
  · rw [progressTrace, List.pairwise_map]
    refine List.Pairwise.imp ?_ (List.pairwise_lt_range _)
    intro a b hab
    simpa [mkSnapshot] using sum_take_mono order (by omega : a + 1 ≤ b + 1)
  · intro s hs
    rw [progressTrace, List.mem_map] at hs
    obtain ⟨k, _, rfl⟩ := hs
    refine ⟨?_, rfl⟩
    simpa [mkSnapshot] using le_trans (sum_take_le order (k + 1)) (le_of_eq hsum)
  · intro k
    by_cases hk : k < order.length
    · rw [progressTrace, List.getElem?_map]
      simp [List.getElem?_range hk, hk]
    · rw [progressTrace, List.getElem?_map]
      have hnone : (List.range order.length)[k]? = none := by
        simp [List.getElem?_range]
        omega
      simp [hnone, hk]

/-- C4 witness: three parts of sizes 5, 5 and 2 completing in the order
    2, 5, 5 produce three in-bound, monotone snapshots. -/
theorem progress_monotone_bounded_witness :
    ([2, 5, 5] : List Nat).Perm [5, 5, 2]
    ∧ (progressTrace [2, 5, 5] 12).length = 3
    ∧ List.Pairwise (fun a b => a.loaded ≤ b.loaded) (progressTrace [2, 5, 5] 12)
    ∧ ∀ s ∈ progressTrace [2, 5, 5] 12, s.loaded ≤ s.total := by
  have hsum : ([5, 5, 2] : List Nat).sum = 12 := rfl
  have hlen : ([5, 5, 2] : List Nat).length = 3 := rfl
  have h := progress_monotone_bounded [5, 5, 2] [2, 5, 5] (by decide)
  rw [hsum, hlen] at h
  exact ⟨by decide, h.1, h.2.1, fun s hs => (h.2.2.1 s hs).1⟩

/-- C5: if any part attempt fails (either the presigned URL request or the
    part PUT), the whole upload call rejects with UploadFailed carrying the
    underlying cause of one of the failed attempts, no key is returned, and
    the best-effort abort call to the Relay is attempted. -/
theorem upload_failure_rejects (attempts : List PartAttempt) (key : String)
    (h : ∃ a ∈ attempts, attemptCause a ≠ none) :
    ∃ c, (uploadOutcome attempts key).outcome = Except.error (UploadError.uploadFailed c)
      ∧ (∃ a ∈ attempts, attemptCause a = some c)
      ∧ (uploadOutcome attempts key).abortAttempted = true
      ∧ ∀ k, (uploadOutcome attempts key).outcome ≠ Except.ok k := by
  obtain ⟨c, hfc, hsrc⟩ := firstFailure_some attempts h
  exact ⟨c, by simp [uploadOutcome, hfc], hsrc, by simp [uploadOutcome, hfc],
    by simp [uploadOutcome, hfc]⟩

/-- C5 witness: an upload whose second part PUT fails rejects with
    UploadFailed and attempts the abort call. -/
theorem upload_failure_rejects_witness :
    (∃ a ∈ [PartAttempt.success "e1", PartAttempt.putFailed "socket closed"],
        attemptCause a ≠ none)
    ∧ ∃ c, (uploadOutcome [PartAttempt.success "e1", PartAttempt.putFailed "socket closed"]
          "k1").outcome = Except.error (UploadError.uploadFailed c)
        ∧ (uploadOutcome [PartAttempt.success "e1", PartAttempt.putFailed "socket closed"]
          "k1").abortAttempted = true := by
  have hex : ∃ a ∈ [PartAttempt.success "e1", PartAttempt.putFailed "socket closed"],
      attemptCause a ≠ none :=
    ⟨PartAttempt.putFailed "socket closed", by decide, by decide⟩
  obtain ⟨c, hc, -, hab, -⟩ :=
    upload_failure_rejects [PartAttempt.success "e1", PartAttempt.putFailed "socket closed"]
      "k1" hex
  exact ⟨hex, c, hc, hab⟩

/-- C6: a Relay request arriving while the secret credential is absent or
    empty is answered with an explicit ConfigurationError response and is not
    forwarded to the backend, whatever the provider and backend are. -/
theorem relay_missing_credential_rejected (apiKey : Option String) (provider : String)
    (backend : RelayOp → BackendResponse) (h : apiKey = none ∨ apiKey = some "") :
    handleStorageRequest apiKey provider backend
        = RelayOutcome.reject RelayError.configurationError
    ∧ ∀ r, handleStorageRequest apiKey provider backend ≠ RelayOutcome.pass r := by
  rw [handleStorageRequest, if_pos h]
  exact ⟨rfl, fun r => by simp⟩

/-- C6 witness: an empty credential with a valid provider is rejected with
    ConfigurationError. -/
theorem relay_missing_credential_rejected_witness :
    ((some "" : Option String) = none ∨ (some "" : Option String) = some "")
    ∧ handleStorageRequest (some "") "preview" (fun _ => ⟨200, "ok"⟩)
        = RelayOutcome.reject RelayError.configurationError := by
  have h := relay_missing_credential_rejected (some "") "preview" (fun _ => ⟨200, "ok"⟩)
    (Or.inr rfl)
  exact ⟨Or.inr rfl, h.1⟩

/-- C7 counterexample: a request with an unrecognized provider but an absent
    credential is rejected with ConfigurationError, not with the
    missing/invalid route error, because the credential check comes first;
    so the claim does not hold for every request with a bad provider. -/
theorem relay_unknown_provider_counterexample :
    handleStorageRequest none "bogus" (fun _ => ⟨200, "ok"⟩)
        = RelayOutcome.reject RelayError.configurationError
    ∧ handleStorageRequest none "bogus" (fun _ => ⟨200, "ok"⟩)
        ≠ RelayOutcome.reject RelayError.invalidRoute
    ∧ "bogus" ∉ recognizedProviders := by
  refine ⟨rfl, by decide, by decide⟩

/-- C7 (amended): for every inbound Relay request carrying a present,
    non-empty secret credential, an unrecognized routing discriminator is
    answered with the missing/invalid route error response and the request is
    not forwarded to the backend. -/
theorem relay_unknown_provider_rejected (apiKey : Option String) (provider : String)
    (backend : RelayOp → BackendResponse)
    (hKey : ¬(apiKey = none ∨ apiKey = some "")) (hProv : provider ∉ recognizedProviders) :
    handleStorageRequest apiKey provider backend = RelayOutcome.reject RelayError.invalidRoute
    ∧ ∀ r, handleStorageRequest apiKey provider backend ≠ RelayOutcome.pass r := by
  rw [handleStorageRequest, if_neg hKey, (parseOp_none_iff provider).mpr hProv]
  exact ⟨rfl, fun r => by simp⟩

/-- C7 witness: with a non-empty credential, the unknown provider s3 is
    rejected with the invalid-route error. -/
theorem relay_unknown_provider_rejected_witness :
    ¬((some "sk-123" : Option String) = none ∨ (some "sk-123" : Option String) = some "")
    ∧ "s3" ∉ recognizedProviders
    ∧ handleStorageRequest (some "sk-123") "s3" (fun _ => ⟨200, "ok"⟩)
        = RelayOutcome.reject RelayError.invalidRoute := by
  have h := relay_unknown_provider_rejected (some "sk-123") "s3" (fun _ => ⟨200, "ok"⟩)
    (by decide) (by decide)
  exact ⟨by decide, by decide, h.1⟩

/-- C8: whatever order the parts completed in, the part list handed to
    finalize is sorted by ascending part number, contains exactly one success
    record per part of the session (so finalize happens only once every part
    has a recorded success), and its part numbers are exactly 1..n. -/
theorem finalize_sorted_complete (n : Nat) (etagOf : Nat → String)
    (recorded : List PartRecord) (h : recorded.Perm (allParts n etagOf)) :
    List.Sorted byNum (finalizeInput recorded)
    ∧ (finalizeInput recorded).Perm (allParts n etagOf)
    ∧ (finalizeInput recorded).map PartRecord.num = (List.range n).map (fun i => i + 1) := by
  have hsorted : List.Sorted byNum (finalizeInput recorded) :=
    List.sorted_insertionSort byNum recorded
  have hperm : (finalizeInput recorded).Perm (allParts n etagOf) :=
    (List.perm_insertionSort byNum recorded).trans h
  refine ⟨hsorted, hperm, ?_⟩
  have hmapperm : ((finalizeInput recorded).map PartRecord.num).Perm
      ((List.range n).map (fun i => i + 1)) := by
    have hm := hperm.map PartRecord.num
    rw [allParts, List.map_map] at hm
    exact hm
  have hs1 : List.Sorted (· ≤ ·) ((finalizeInput recorded).map PartRecord.num) := by
    rw [List.Sorted, List.pairwise_map]
    exact hsorted
  have hs2 : List.Sorted (· ≤ ·) ((List.range n).map (fun i => i + 1)) := by
    rw [List.Sorted, List.pairwise_map]
    refine List.Pairwise.imp ?_ (List.pairwise_lt_range n)
    intro a b hab
    omega
  exact List.eq_of_perm_of_sorted hmapperm hs1 hs2

/-- C8 witness: parts completing in the order 2, 3, 1 are handed to finalize
    as the ascending list 1, 2, 3. -/
theorem finalize_sorted_complete_witness :
    ([⟨2, "e2"⟩, ⟨3, "e3"⟩, ⟨1, "e1"⟩] : List PartRecord).Perm
        (allParts 3 (fun i => "e" ++ toString i))
    ∧ (finalizeInput [⟨2, "e2"⟩, ⟨3, "e3"⟩, ⟨1, "e1"⟩]).map PartRecord.num = [1, 2, 3] := by
  have h := finalize_sorted_complete 3 (fun i => "e" ++ toString i)
    [⟨2, "e2"⟩, ⟨3, "e3"⟩, ⟨1, "e1"⟩] (by decide)
  refine ⟨by decide, ?_⟩
  rw [h.2.2]
  rfl

/-- C9: a Relay transport error and a key unknown to the backend both make
    get reject with PreviewFailed; a key the backend knows yields exactly the
    backend-issued grant, whose expiration lies strictly after the current
    time, with no local caching or expiry pre-validation. -/
theorem preview_resolution (store : String → Option String) (now : Nat) (kU kK u : String)
    (hU : store kU = none) (hK : store kK = some u) :
    Storage.get true (backendPreview store now) kU = Except.error PreviewError.previewFailed
    ∧ Storage.get false (backendPreview store now) kU = Except.error PreviewError.previewFailed
    ∧ Storage.get false (backendPreview store now) kK = Except.ok ⟨u, now + 300⟩
    ∧ now < (PreviewGrant.mk u (now + 300)).expiresAt := by
  refine ⟨rfl, ?_, ?_, by simp⟩
  · simp [Storage.get, backendPreview, hU]
  · simp [Storage.get, backendPreview, hK]

/-- C9 witness: with a backend knowing only the key obj-1, get on a missing
    key rejects with PreviewFailed and get on obj-1 returns the backend grant
    verbatim, expiring 300 seconds after the current time. -/
theorem preview_resolution_witness :
    ((fun k => if k = "obj-1" then some "https://cdn.example.com/obj-1" else none)
        "missing" = (none : Option String))
    ∧ Storage.get false
        (backendPreview
          (fun k => if k = "obj-1" then some "https://cdn.example.com/obj-1" else none)
          1700000000) "missing"
        = Except.error PreviewError.previewFailed
    ∧ Storage.get false
        (backendPreview
          (fun k => if k = "obj-1" then some "https://cdn.example.com/obj-1" else none)
          1700000000) "obj-1"
        = Except.ok ⟨"https://cdn.example.com/obj-1", 1700000000 + 300⟩ := by
  have h := preview_resolution
    (fun k => if k = "obj-1" then some "https://cdn.example.com/obj-1" else none)
    1700000000 "missing" "obj-1" "https://cdn.example.com/obj-1" (by decide) (by decide)
  exact ⟨by decide, h.2.1, h.2.2.1⟩

/-- C10: the module exports exactly the four names UploadOptions,
    UploadProgress, handleStorageRequest and storage; in particular
    PreviewResult, which the bundled README instructs users to import, is not
    among the exported names. -/
theorem export_surface_exact :
    moduleExports = ["UploadOptions", "UploadProgress", "handleStorageRequest", "storage"]
    ∧ "PreviewResult" ∉ moduleExports
    ∧ "PreviewResult" ∈ readmeImportExample :=
  ⟨rfl, by decide, by decide⟩
